import Mathlib

set_option maxRecDepth 2000

/-
  Verification development for the micro-segment data plane
  (internal/dp/dpi/dpi_entry.c and the structures of internal/dp/apis.h).

  Shallow embedding conventions:
  * machine integers are Nat with explicit truncation (mod 256 / 65536 / 2^32)
    at the points where the C code narrows a value;
  * a MAC address is its 6 raw bytes (List Nat);
  * IPv4 addresses are the uint32 value as stored in memory on a
    little-endian host, i.e. in network byte order the first wire octet is
    the low byte (byteswap32 models htonl/ntohl);
  * emission of a frame through the send_packet callback is modelled by the
    functions returning the emitted byte list (Option / List of frames);
  * rcu_map lookups over the global endpoint map are modelled by a lookup
    function passed as an argument (the map is read-only on these paths).
-/

namespace MSeg

/-- Bytes of a 16-bit value stored big-endian, as htons does on the wire. -/
def be16 (n : Nat) : List Nat := [n / 256 % 256, n % 256]

/-- Bytes of a 32-bit value stored big-endian, as htonl does on the wire. -/
def be32 (n : Nat) : List Nat :=
  [n / 16777216 % 256, n / 65536 % 256, n / 256 % 256, n % 256]

/-- Memory bytes of a uint32 on a little-endian host (low byte first). -/
def le32 (n : Nat) : List Nat :=
  [n % 256, n / 256 % 256, n / 65536 % 256, n / 16777216 % 256]

/-- Byte swap of a 32-bit value: models htonl and ntohl on a little-endian
host. -/
def byteswap32 (n : Nat) : Nat :=
  (n % 256) * 16777216 + (n / 256 % 256) * 65536
    + (n / 65536 % 256) * 256 + (n / 16777216 % 256)

/-- Modelled from the spec: htonl of libc (helper code is outside src). -/
def htonl (n : Nat) : Nat := byteswap32 n

/-- Modelled from the spec: ntohl of libc (helper code is outside src). -/
def ntohl (n : Nat) : Nat := byteswap32 n

/-- INADDR_LOOPBACK, 127.0.0.1 in host byte order. -/
def INADDR_LOOPBACK : Nat := 0x7f000001

/-- Modelled from the spec: the IS_IN_LOOPBACK macro of utils/helper.h,
which is not under src; the spec describes the test as membership of
127.0.0.0/8. The argument is in host byte order. -/
def IS_IN_LOOPBACK (a : Nat) : Bool := a &&& 0xff000000 == 0x7f000000

/- Action codes from internal/dp/defs.h. -/
def DPI_ACTION_NONE : Nat := 0
def DPI_ACTION_ALLOW : Nat := 1
def DPI_ACTION_DROP : Nat := 2
def DPI_ACTION_RESET : Nat := 3
def DPI_ACTION_BYPASS : Nat := 4
def DPI_ACTION_BLOCK : Nat := 5

/-- ETH_P_IP ethertype. -/
def ETH_P_IP : Nat := 0x0800

/-- ETH_P_IPV6 ethertype. -/
def ETH_P_IPV6 : Nat := 0x86DD

/-- APP_SRC_DP of apis.h: application record discovered by the data plane. -/
def APP_SRC_DP : Nat := 2

/-- SERVER_VER_SIZE of apis.h. -/
def SERVER_VER_SIZE : Nat := 32

/-- io_subnet4_t of apis.h: (network address, mask), both as uint32 in
network byte order. -/
structure io_subnet4_t where
  ip : Nat
  mask : Nat
deriving Repr, DecidableEq

/--
dpi_is_ip4_internal of dpi_entry.c. The thread-local snapshot
th_internal_subnet4 is passed explicitly; none models a NULL pointer and
the list length models the count field of io_internal_subnet4_t. The ip
argument is in network byte order, exactly as in the source.
-/
def dpi_is_ip4_internal (th_internal_subnet4 : Option (List io_subnet4_t))
    (ip : Nat) : Bool :=
  match th_internal_subnet4 with
  | none => true
  | some l =>
    if l.length == 0 || ip == htonl INADDR_LOOPBACK || IS_IN_LOOPBACK (ntohl ip) then
      true
    else
      l.any (fun e => ip &&& e.mask == e.ip)

/-- io_app_t of apis.h: one application record of an endpoint, keyed by
(port, ip_proto). The version field holds the C string content (no NUL). -/
structure io_app_t where
  port : Nat
  proto : Nat
  server : Nat
  application : Nat
  version : List Char
  listen : Bool
  ip_proto : Nat
  src : Nat
deriving Repr, DecidableEq

/-- Key comparison used by the app_map rcu_map: port and ip_proto. -/
def app_key_match (a : io_app_t) (port ip_proto : Nat) : Bool :=
  a.port == port && a.ip_proto == ip_proto

/-- io_ep_t of apis.h, restricted to the fields read or written by
dpi_entry.c on the embedded paths: the unicast alias MAC (6 raw bytes of
ep->ucmac->mac), the tap flag, the ProxyMesh parent IP list pips (none
models a NULL pointer; entries are uint32 in network byte order), the
application map (modelled as the list of records held by the rcu_map,
looked up by key), the app_updated dirty flag and the app_ports count. -/
structure io_ep_t where
  ucmac : List Nat
  tap : Bool
  pips : Option (List Nat)
  app_map : List io_app_t
  app_updated : Nat
  app_ports : Nat
deriving Repr, DecidableEq

/-- dpi_ep_app_map_lookup of dpi_entry.c: rcu_map_lookup on the app map,
returning the first record whose (port, ip_proto) key matches. -/
def dpi_ep_app_map_lookup (ep : io_ep_t) (port ip_proto : Nat) : Option io_app_t :=
  ep.app_map.find? (fun a => app_key_match a port ip_proto)

/-- The record built by ep_app_map_locate when the key is absent: calloc
zero-fill plus the port, ip_proto and src = APP_SRC_DP assignments. -/
def ep_app_new (port ip_proto : Nat) : io_app_t :=
  { port := port, proto := 0, server := 0, application := 0, version := [],
    listen := false, ip_proto := ip_proto, src := APP_SRC_DP }

/-- ep_app_map_locate of dpi_entry.c: look up the record, creating and
inserting a fresh one when absent (allocation is assumed to succeed, as
in every claim instance). Returns the located record and the updated
endpoint. -/
def ep_app_map_locate (ep : io_ep_t) (port ip_proto : Nat) : io_app_t × io_ep_t :=
  match dpi_ep_app_map_lookup ep port ip_proto with
  | some a => (a, ep)
  | none =>
    let a := ep_app_new port ip_proto
    (a, { ep with app_map := a :: ep.app_map, app_ports := ep.app_ports + 1 })

/-- In-place mutation of the located record: replace the first record with
the given key by a2 (the C code writes through the pointer returned by
ep_app_map_locate). -/
def app_map_update (m : List io_app_t) (port ip_proto : Nat) (a2 : io_app_t) :
    List io_app_t :=
  match m with
  | [] => []
  | a :: rest =>
    if app_key_match a port ip_proto then a2 :: rest
    else a :: app_map_update rest port ip_proto a2

/-- DPI_SESS_FLAG_INGRESS / TAP / PROXYMESH of dpi_module.h (declarations
outside src); each flag tested by dpi_entry.c is modelled as one Boolean,
FLAGS_TEST being the field read. -/
structure dpi_session_flags_t where
  ingress : Bool
  tap : Bool
  proxymesh : Bool
deriving Repr, DecidableEq

/-- Modelled from the spec: dpi_wing_t of dpi_module.h (outside src); one
side of a session holding MAC (6 raw bytes), IP, port and next expected
sequence number, exactly the fields dpi_entry.c reads. ip4 is the uint32
in network byte order as stored on a little-endian host. -/
structure dpi_wing_t where
  mac : List Nat
  ip4 : Nat
  port : Nat
  next_seq : Nat
deriving Repr, DecidableEq

/-- Modelled from the spec: dpi_session_t of dpi_module.h (outside src),
restricted to the fields dpi_entry.c reads: the two wings, the flags and
the ip_proto of the 5-tuple. -/
structure dpi_session_t where
  client : dpi_wing_t
  server : dpi_wing_t
  flags : dpi_session_flags_t
  ip_proto : Nat
deriving Repr, DecidableEq

/-- dpi_ep_set_proto of dpi_entry.c. The dpi_packet_t argument is passed
as the two fields the function reads, p->ep and p->session (callers
guarantee a non-NULL session). Returns the updated endpoint. -/
def dpi_ep_set_proto (ep : io_ep_t) (s : dpi_session_t) (proto : Nat) : io_ep_t :=
  if !s.flags.ingress then ep
  else
    let loc := ep_app_map_locate ep s.server.port s.ip_proto
    let app := loc.1
    let ep1 := loc.2
    if proto != 0 && app.proto != proto then
      { ep1 with
        app_map := app_map_update ep1.app_map s.server.port s.ip_proto
          { app with proto := proto },
        app_updated := 1 }
    else ep1

/-- dpi_ep_get_app of dpi_entry.c. Returns the application field of the
located record (0 for an egress session) together with the updated
endpoint, since ep_app_map_locate may insert a fresh record. -/
def dpi_ep_get_app (ep : io_ep_t) (s : dpi_session_t) : Nat × io_ep_t :=
  if !s.flags.ingress then (0, ep)
  else
    let loc := ep_app_map_locate ep s.server.port s.ip_proto
    (loc.1.application, loc.2)

/-- dpi_ep_set_app of dpi_entry.c: each of the server and application
fields is overwritten only when the new value is non-zero and differs
from the stored one, and app_updated is raised to 1 when a write
happened. -/
def dpi_ep_set_app (ep : io_ep_t) (s : dpi_session_t) (server application : Nat) :
    io_ep_t :=
  if !s.flags.ingress then ep
  else
    let loc := ep_app_map_locate ep s.server.port s.ip_proto
    let app := loc.1
    let ep1 := loc.2
    let ch1 := server != 0 && app.server != server
    let app1 := if ch1 then { app with server := server } else app
    let ch2 := application != 0 && app1.application != application
    let app2 := if ch2 then { app1 with application := application } else app1
    let ep2 := { ep1 with
      app_map := app_map_update ep1.app_map s.server.port s.ip_proto app2 }
    if ch1 || ch2 then { ep2 with app_updated := 1 } else ep2

/-- dpi_ep_set_server_ver of dpi_entry.c. size = min(len+1,
SERVER_VER_SIZE); strncpy copies at most size-1 characters of ver and the
code writes a NUL at size-1, so the stored C string becomes the first
size-1 characters of ver (callers pass len = strlen(ver)). The stored
value is overwritten unconditionally. -/
def dpi_ep_set_server_ver (ep : io_ep_t) (s : dpi_session_t) (ver : List Char)
    (len : Nat) : io_ep_t :=
  let size := min (len + 1) SERVER_VER_SIZE
  if !s.flags.ingress then ep
  else
    let loc := ep_app_map_locate ep s.server.port s.ip_proto
    let app := loc.1
    let ep1 := loc.2
    { ep1 with
      app_map := app_map_update ep1.app_map s.server.port s.ip_proto
        { app with version := ver.take (size - 1) } }

/-- dpi_packet_t of dpi_module.h (declaration outside src), restricted to
the fields nfq_packet_direction reads: the resolved endpoint, the
ethertype, the IPv4 header addresses (network byte order, meaningful when
eth_type = ETH_P_IP) and the decoded ports and ip_proto. -/
structure dpi_packet_t where
  ep : io_ep_t
  eth_type : Nat
  saddr : Nat
  daddr : Nat
  sport : Nat
  dport : Nat
  ip_proto : Nat
deriving Repr, DecidableEq

/-- The pips loop of nfq_packet_direction: first entry equal to the
destination address yields ingress (some true), first entry equal to the
source address yields egress (some false); none means fall through. -/
def pips_scan (pips : List Nat) (saddr daddr : Nat) : Option Bool :=
  match pips with
  | [] => none
  | e :: rest =>
    if daddr == e then some true
    else if saddr == e then some false
    else pips_scan rest saddr daddr

/-- nfq_packet_direction of dpi_entry.c (true = ingress). -/
def nfq_packet_direction (p : dpi_packet_t) : Bool :=
  let hit : Option Bool :=
    if p.eth_type == ETH_P_IP then
      match p.ep.pips with
      | some pips => pips_scan pips p.saddr p.daddr
      | none => none
    else none
  match hit with
  | some b => b
  | none =>
    if (dpi_ep_app_map_lookup p.ep p.dport p.ip_proto).isSome then true
    else if (dpi_ep_app_map_lookup p.ep p.sport p.ip_proto).isSome then false
    else p.dport < p.sport

/-- The direction rule in the words of claim C3: the first pips entry
equal to either address decides (destination match = ingress, source
match = egress); otherwise an app-map hit on the destination port means
ingress, else a hit on the source port means egress, else ingress iff
dport < sport. -/
def nfq_direction_claim (pips : List Nat) (saddr daddr : Nat)
    (app_on_dport app_on_sport : Bool) (sport dport : Nat) : Bool :=
  match pips.find? (fun e => daddr == e || saddr == e) with
  | some e => daddr == e
  | none =>
    if app_on_dport then true
    else if app_on_sport then false
    else dport < sport

/-- The record returned by ep_app_map_locate (the stored record, or the
fresh zero record when the key is absent). -/
def located_app (ep : io_ep_t) (port ip_proto : Nat) : io_app_t :=
  (ep_app_map_locate ep port ip_proto).1

/-- A 32-bit IPv4 address in network byte order as held in a uint32 on a
little-endian host: octet a is the first wire octet and the low byte. -/
def ip4n (a b c d : Nat) : Nat := a + b * 256 + c * 65536 + d * 16777216

/-- Sample endpoint: one app record on TCP port 80 with server kind 3 and
version 1.0. -/
def epW : io_ep_t :=
  { ucmac := [2, 0, 0, 0, 0, 1], tap := false, pips := none,
    app_map := [ { port := 80, proto := 0, server := 3, application := 0,
                   version := ['1', '.', '0'], listen := false,
                   ip_proto := 6, src := APP_SRC_DP } ],
    app_updated := 0, app_ports := 1 }

/-- Sample client wing. -/
def wingClt : dpi_wing_t :=
  { mac := [2, 0, 0, 0, 0, 2], ip4 := ip4n 10 0 0 5, port := 4000,
    next_seq := 1000 }

/-- Sample server wing (MAC owned by epW). -/
def wingSrv : dpi_wing_t :=
  { mac := [2, 0, 0, 0, 0, 1], ip4 := ip4n 10 0 0 1, port := 80,
    next_seq := 2000 }

/-- Sample ingress TCP session. -/
def sessIn : dpi_session_t :=
  { client := wingClt, server := wingSrv,
    flags := { ingress := true, tap := false, proxymesh := false },
    ip_proto := 6 }

/-- Sample egress TCP session. -/
def sessEg : dpi_session_t :=
  { client := wingClt, server := wingSrv,
    flags := { ingress := false, tap := false, proxymesh := false },
    ip_proto := 6 }

/-- Sample NFQ endpoint whose pips list is the single address 10.1.1.1. -/
def epNfq : io_ep_t :=
  { ucmac := [2, 0, 0, 0, 0, 1], tap := false,
    pips := some [ip4n 10 1 1 1], app_map := [], app_updated := 0,
    app_ports := 0 }

/-- The NFQ example packet of the spec: daddr 10.1.1.1, saddr 8.8.8.8,
dport 53, sport 34000. -/
def pktNfqA : dpi_packet_t :=
  { ep := epNfq, eth_type := ETH_P_IP, saddr := ip4n 8 8 8 8,
    daddr := ip4n 10 1 1 1, sport := 34000, dport := 53, ip_proto := 17 }

/-- The NFQ example packet with the addresses swapped. -/
def pktNfqB : dpi_packet_t :=
  { ep := epNfq, eth_type := ETH_P_IP, saddr := ip4n 10 1 1 1,
    daddr := ip4n 8 8 8 8, sport := 34000, dport := 53, ip_proto := 17 }

/-- io_mac_t of apis.h: a MAC map entry associating the 6 raw MAC bytes
with an endpoint (the broadcast and unicast bits are not read on the
embedded paths). -/
structure io_mac_t where
  mac : List Nat
  ep : io_ep_t
deriving Repr, DecidableEq

/-- Ones-complement 16-bit addition with end-around carry, the primitive
of the Internet checksum. -/
def onesAdd (a b : Nat) : Nat :=
  if a + b ≥ 65536 then a + b - 65535 else a + b

/-- Internet checksum folding of a list of 16-bit words. -/
def cksumFold (ws : List Nat) : Nat := ws.foldl onesAdd 0

/-- Modelled from the spec: get_ip_cksum of utils/helper.h (outside src)
computes the standard IPv4 header checksum, the complement of the
ones-sum of the ten header words with the checksum field taken as zero.
The C function receives the header pointer; the model receives the header
as its big-endian 16-bit words. -/
def get_ip_cksum (ws : List Nat) : Nat := 65535 - cksumFold ws

/-- Modelled from the spec: get_l4v4_cksum of utils/helper.h (outside
src) computes the TCP checksum over the IPv4 pseudo header followed by
the TCP header words with the checksum field taken as zero. -/
def get_l4v4_cksum (ws : List Nat) : Nat := 65535 - cksumFold ws

/-- Big-endian 16-bit words of a byte list, taken in adjacent pairs. -/
def words16 : List Nat → List Nat
  | b0 :: b1 :: rest => (b0 * 256 + b1) :: words16 rest
  | _ => []

/-- Bytes of a word list, each word emitted big-endian. -/
def bytesOfWords : List Nat → List Nat
  | [] => []
  | w :: ws => be16 w ++ bytesOfWords ws

/-- First checksum word of a uint32 held in memory order on a
little-endian host (bytes 0 and 1 on the wire). -/
def ipw1 (n : Nat) : Nat := (n % 256) * 256 + (n / 256 % 256)

/-- Second checksum word of a uint32 held in memory order on a
little-endian host (bytes 2 and 3 on the wire). -/
def ipw2 (n : Nat) : Nat := (n / 65536 % 256) * 256 + (n / 16777216 % 256)

/-- Ethernet header of the injected RST: h_dest, h_source, then
htons(ETH_P_IP). The source/destination MACs are chosen exactly as in
dpi_inject_reset_by_session from the session INGRESS flag and the
to_server argument, between the EP unicast alias MAC and the client wing
MAC. -/
def rst_eth_hdr (ingress to_server : Bool) (uc cmac : List Nat) : List Nat :=
  let sd :=
    if ingress then (if to_server then (cmac, uc) else (uc, cmac))
    else (if to_server then (uc, cmac) else (cmac, uc))
  sd.2 ++ (sd.1 ++ [0x08, 0x00])

/-- The ten IPv4 header words of the injected RST with the checksum field
zero: version 4 / ihl 5 / tos 0, total length 40, the identification
(already reduced mod 2^16), flags 0x4000 (DF), TTL 255 / protocol 6,
then source and destination addresses. -/
def rst_ip_words0 (idv sa da : Nat) : List Nat :=
  [0x4500, 40, idv, 0x4000, 0xFF06, 0, ipw1 sa, ipw2 sa, ipw1 da, ipw2 da]

/-- The stored IPv4 header checksum of the injected RST. -/
def rst_ip_check (idv sa da : Nat) : Nat := get_ip_cksum (rst_ip_words0 idv sa da)

/-- The ten IPv4 header words of the injected RST with the checksum
filled in. -/
def rst_ip_words (idv sa da : Nat) : List Nat :=
  [0x4500, 40, idv, 0x4000, 0xFF06, rst_ip_check idv sa da,
   ipw1 sa, ipw2 sa, ipw1 da, ipw2 da]

/-- The ten TCP header words of the injected RST with the checksum field
zero: ports, the 32-bit sequence number split in two words, ack 0, data
offset 5 with only the RST flag (0x5004), window 0, checksum 0 and
urgent pointer 0. -/
def rst_tcp_words0 (sp dp seq : Nat) : List Nat :=
  [sp, dp, seq / 65536, seq % 65536, 0, 0, 0x5004, 0, 0, 0]

/-- The IPv4 pseudo header words for the TCP checksum: addresses,
protocol 6 and TCP length 20. -/
def rst_pseudo_words (sa da : Nat) : List Nat :=
  [ipw1 sa, ipw2 sa, ipw1 da, ipw2 da, 6, 20]

/-- The stored TCP checksum of the injected RST. -/
def rst_tcp_check (sa da sp dp seq : Nat) : Nat :=
  get_l4v4_cksum (rst_pseudo_words sa da ++ rst_tcp_words0 sp dp seq)

/-- The ten TCP header words of the injected RST with the checksum filled
in. -/
def rst_tcp_words (sa da sp dp seq : Nat) : List Nat :=
  [sp, dp, seq / 65536, seq % 65536, 0, 0, 0x5004, 0,
   rst_tcp_check sa da sp dp seq, 0]

/-- Source address of the injected RST (uint32 value). -/
def rst_sa (sess : dpi_session_t) (to_server : Bool) : Nat :=
  (if to_server then sess.client.ip4 else sess.server.ip4) % 4294967296

/-- Destination address of the injected RST (uint32 value). -/
def rst_da (sess : dpi_session_t) (to_server : Bool) : Nat :=
  (if to_server then sess.server.ip4 else sess.client.ip4) % 4294967296

/-- Source port of the injected RST. -/
def rst_sp (sess : dpi_session_t) (to_server : Bool) : Nat :=
  (if to_server then sess.client.port else sess.server.port) % 65536

/-- Destination port of the injected RST. -/
def rst_dp (sess : dpi_session_t) (to_server : Bool) : Nat :=
  (if to_server then sess.server.port else sess.client.port) % 65536

/-- Sequence number of the injected RST: the next expected sequence of
the wing whose byte stream the RST continues (the client wing when
to_server, else the server wing). -/
def rst_seq (sess : dpi_session_t) (to_server : Bool) : Nat :=
  (if to_server then sess.client.next_seq else sess.server.next_seq) % 4294967296

/-- The 54-byte frame built by dpi_inject_reset_by_session: Ethernet
header, IPv4 header and TCP header, with addresses, ports and sequence
number selected by to_server, the identification truncated from rand()
to 16 bits, and every uint32 field reduced mod 2^32 as by the C types. -/
def rst_frame (sess : dpi_session_t) (to_server : Bool) (uc : List Nat)
    (randId : Nat) : List Nat :=
  rst_eth_hdr sess.flags.ingress to_server uc sess.client.mac
    ++ (bytesOfWords (rst_ip_words (randId % 65536)
          (rst_sa sess to_server) (rst_da sess to_server))
        ++ bytesOfWords (rst_tcp_words
          (rst_sa sess to_server) (rst_da sess to_server)
          (rst_sp sess to_server) (rst_dp sess to_server)
          (rst_seq sess to_server)))

/-- dpi_inject_reset_by_session of dpi_entry.c. The g_ep_map lookup is
passed as a function from the 6 raw MAC bytes; randId models the rand()
call. The returned Option is the emitted frame: none means send_packet is
not called and nothing is modified; some f means exactly one send_packet
call carrying frame f. -/
def dpi_inject_reset_by_session (g_ep_map : List Nat → Option io_mac_t)
    (sess : dpi_session_t) (to_server : Bool) (randId : Nat) :
    Option (List Nat) :=
  if sess.flags.tap then none
  else if sess.flags.proxymesh then none
  else
    match
      (if sess.flags.ingress then g_ep_map sess.server.mac
       else g_ep_map sess.client.mac) with
    | none => none
    | some m => some (rst_frame sess to_server m.ep.ucmac randId)

/-- dpi_inject_reset of dpi_entry.c: no-op when the packet carries no
session, else dpi_inject_reset_by_session. -/
def dpi_inject_reset (g_ep_map : List Nat → Option io_mac_t)
    (session : Option dpi_session_t) (to_server : Bool) (randId : Nat) :
    Option (List Nat) :=
  match session with
  | none => none
  | some sess => dpi_inject_reset_by_session g_ep_map sess to_server randId

/-- Wire validation of the IPv4 header checksum of an Ethernet frame: the
ones-sum of the ten header words, checksum included, is 0xFFFF. -/
def ip_checksum_ok (f : List Nat) : Prop :=
  cksumFold (words16 ((f.drop 14).take 20)) = 65535

/-- Wire validation of the TCP checksum of an Ethernet + IPv4(20) frame:
the ones-sum of the pseudo header (addresses, protocol 6, TCP length 20)
and the 20 TCP bytes, checksum included, is 0xFFFF. -/
def tcp_checksum_ok (f : List Nat) : Prop :=
  cksumFold (words16 ((f.drop 26).take 8) ++ ([6, 20] ++ words16 ((f.drop 34).take 20)))
    = 65535

/-- The IPv4 header words of the frame emitted for a given session,
direction and rand() value. -/
def rst_ip_words_of (sess : dpi_session_t) (to_server : Bool) (randId : Nat) :
    List Nat :=
  rst_ip_words (randId % 65536) (rst_sa sess to_server) (rst_da sess to_server)

/-- The TCP header words of the frame emitted for a given session and
direction. -/
def rst_tcp_words_of (sess : dpi_session_t) (to_server : Bool) : List Nat :=
  rst_tcp_words (rst_sa sess to_server) (rst_da sess to_server)
    (rst_sp sess to_server) (rst_dp sess to_server) (rst_seq sess to_server)

/-- The wire facts claim C1 states about the emitted frame f: 54 bytes
(14 Ethernet + 20 IPv4 + 20 TCP, witnessed by the total-length field 40
at offset 16 and version 4 / ihl 5 at offset 14); ethertype 0x0800;
identification = rand() mod 2^16 at offset 18; flags/fragment bytes
0x40 0x00 at offset 20 (DF set, offset 0); TTL 255 and protocol 6 at
offset 22; a validating IPv4 header checksum; source and destination
ports at 34 and 36; the sequence number (the target wing next_seq) at
38; ack 0 at 42; data offset 5 with flag byte 0x04 (RST only) at 46;
window 0 at 48; urgent pointer 0 at 52; and a validating TCP
pseudo-header checksum. -/
def rst_frame_wire_ok (sess : dpi_session_t) (to_server : Bool)
    (randId : Nat) (f : List Nat) : Prop :=
  f.length = 54 ∧
  (f.drop 12).take 2 = [8, 0] ∧
  (f.drop 14).take 2 = [69, 0] ∧
  (f.drop 16).take 2 = [0, 40] ∧
  (f.drop 18).take 2 = be16 (randId % 65536) ∧
  (f.drop 20).take 2 = [64, 0] ∧
  (f.drop 22).take 2 = [255, 6] ∧
  ip_checksum_ok f ∧
  (f.drop 34).take 2 = be16 (rst_sp sess to_server) ∧
  (f.drop 36).take 2 = be16 (rst_dp sess to_server) ∧
  (f.drop 38).take 4 = be32 (rst_seq sess to_server) ∧
  (f.drop 42).take 4 = [0, 0, 0, 0] ∧
  (f.drop 46).take 2 = [80, 4] ∧
  (f.drop 48).take 2 = [0, 0] ∧
  (f.drop 52).take 2 = [0, 0] ∧
  tcp_checksum_ok f

/-- Sample MAC map entry owned by epW. -/
def macW : io_mac_t := { mac := [2, 0, 0, 0, 0, 1], ep := epW }

/-- Sample g_ep_map resolving only the MAC of epW. -/
def epMapW : List Nat → Option io_mac_t :=
  fun m => if m = [2, 0, 0, 0, 0, 1] then some macW else none

/-- Sample TAP session. -/
def sessTap : dpi_session_t :=
  { client := wingClt, server := wingSrv,
    flags := { ingress := true, tap := true, proxymesh := false },
    ip_proto := 6 }

/-- Sample ProxyMesh session. -/
def sessPm : dpi_session_t :=
  { client := wingClt, server := wingSrv,
    flags := { ingress := true, tap := false, proxymesh := true },
    ip_proto := 6 }

/-- io_ctx_t of apis.h, restricted to the fields dpi_recv_packet reads on
the embedded control paths: the context MAC and the tap/tc/quar/nfq mode
flags (dp_ctx, tick, stats_slot and large_frame only feed statistics and
timers, which the embedding does not track). -/
structure io_ctx_t where
  ep_mac : List Nat
  tap : Bool
  tc : Bool
  quar : Bool
  nfq : Bool
deriving Repr, DecidableEq

/-- Outcome of dpi_parse_ethernet on the received packet (the decoder
lives outside dpi_entry.c and is abstracted by its observable results):
the returned action, the decoded ethertype, whether a fragment tracker is
held (frag_trac non-NULL), and whether the IP destination address is
broadcast or multicast (the test of the bypass switch in
dpi_recv_packet). -/
structure parse_out_t where
  action : Nat
  eth_type : Nat
  frag_held : Bool
  dst_mb : Bool
deriving Repr, DecidableEq

/-- The environment of one dpi_recv_packet call: the g_ep_map lookup, the
promisc configuration bit, the dpi_parse_ethernet outcome, the
dpi_inspect_ethernet action (session location, parser dispatch and policy
live outside dpi_entry.c), and the two direction-heuristic results
(nfq_packet_direction is embedded separately and abstracted here by its
Boolean result, as is proxymesh_packet_direction). -/
structure dpi_env_t where
  g_ep_map : List Nat → Option io_mac_t
  promisc : Bool
  parse : parse_out_t
  inspect : Nat
  pm_dir : Bool
  nfq_dir : Bool

/-- Observable effects of one dpi_recv_packet call: the return value
(read only in NFQ mode), the frames passed to send_packet, whether a held
fragment set was discarded or forwarded, whether dpi_parse_ethernet ran,
whether dpi_inspect_ethernet (session/parser/policy processing) ran, and
whether g_ep_map was consulted. -/
structure recv_result_t where
  ret : Nat
  sent : List (List Nat)
  frag_discarded : Bool
  frag_sent : Bool
  parsed : Bool
  inspected : Bool
  ep_lookup : Bool
deriving Repr, DecidableEq

/-- Modelled from the spec: is_mac_m_b_cast of utils/helper.h (outside
src); a destination MAC is broadcast or multicast iff the group bit (the
least significant bit of the first octet) is set. -/
def is_mac_m_b_cast (mac : List Nat) : Bool := (mac.headD 0) % 2 == 1

/-- Modelled from the spec: mac_cmp of utils/helper.h (outside src),
byte comparison of two 6-byte MACs. -/
def mac_cmp (a b : List Nat) : Bool := a == b

/-- cmp_mac_prefix of dpi_entry.c: compare the first 4 MAC bytes with a
4-character prefix (the C code compares them as one uint32). -/
def cmp_mac_prefix4 (mac pfx : List Nat) : Bool := mac.take 4 == pfx

/-- The bytes of MAC_PREFIX, the string NeuV. -/
def MAC_PREFIX_BYTES : List Nat := [78, 101, 117, 86]

/-- The bytes of PROXYMESH_MAC_PREFIX, the string lkst. -/
def PROXYMESH_MAC_PREFIX_BYTES : List Nat := [108, 107, 115, 116]

/-- Result of the L2 / workload-lookup phase of dpi_recv_packet: either
an early return, or continuation into decode carrying the local tap
flag, the INGRESS packet flag, the isproxymesh flag and whether g_ep_map
was consulted. -/
inductive l2_out_t where
  | exit (r : recv_result_t)
  | cont (tap ingress isproxymesh ep_lookup : Bool)
deriving Repr, DecidableEq

/-- Shared tail of the workload lookup: a resolved MAC record sets the
endpoint and its tap flag; otherwise promisc mode substitutes the dummy
endpoint (INGRESS and FAKE_EP set, tap from the context), and without
promisc the packet is ignored with return 0 and no forward. -/
def l2_resolve (looked : Bool) (mac : Option io_mac_t) (promisc ctx_tap
    ingress isproxymesh : Bool) : l2_out_t :=
  match mac with
  | some m => l2_out_t.cont m.ep.tap ingress isproxymesh looked
  | none =>
    if promisc then l2_out_t.cont ctx_tap true isproxymesh looked
    else l2_out_t.exit
      { ret := 0, sent := [], frag_discarded := false, frag_sent := false,
        parsed := false, inspected := false, ep_lookup := looked }

/-- The L2 phase of dpi_recv_packet (lines up to the dpi_parse_ethernet
call): broadcast/multicast forwarding and the quarantine drop in non-TC
mode, then the workload lookup chain in the order of the source. A
packet shorter than an Ethernet header skips the whole lookup block
(th_packet.ep stays NULL) and proceeds to decode. -/
def dpi_recv_l2 (env : dpi_env_t) (ctx : io_ctx_t) (pkt : List Nat) : l2_out_t :=
  if pkt.length < 14 then l2_out_t.cont false false false false
  else
    let dst := pkt.take 6
    let src := (pkt.drop 6).take 6
    if !ctx.tc then
      if is_mac_m_b_cast dst then
        l2_out_t.exit
          (if ctx.nfq then
            { ret := 0, sent := [], frag_discarded := false, frag_sent := false,
              parsed := false, inspected := false, ep_lookup := false }
          else
            { ret := 0, sent := [pkt], frag_discarded := false,
              frag_sent := false, parsed := false, inspected := false,
              ep_lookup := false })
      else if ctx.quar then
        l2_out_t.exit
          { ret := 1, sent := [], frag_discarded := false, frag_sent := false,
            parsed := false, inspected := false, ep_lookup := false }
      else if mac_cmp src ctx.ep_mac then
        l2_resolve true (env.g_ep_map src) env.promisc ctx.tap false false
      else if mac_cmp dst ctx.ep_mac then
        l2_resolve true (env.g_ep_map dst) env.promisc ctx.tap true false
      else
        l2_resolve false none env.promisc ctx.tap false false
    else if cmp_mac_prefix4 src MAC_PREFIX_BYTES then
      l2_resolve true (env.g_ep_map src) env.promisc ctx.tap false false
    else if cmp_mac_prefix4 dst MAC_PREFIX_BYTES then
      l2_resolve true (env.g_ep_map dst) env.promisc ctx.tap true false
    else if mac_cmp dst ctx.ep_mac then
      l2_resolve true (env.g_ep_map dst) env.promisc ctx.tap true false
    else if mac_cmp src ctx.ep_mac then
      l2_resolve true (env.g_ep_map src) env.promisc ctx.tap false false
    else if cmp_mac_prefix4 ctx.ep_mac PROXYMESH_MAC_PREFIX_BYTES then
      l2_resolve true (env.g_ep_map ctx.ep_mac) env.promisc ctx.tap false true
    else if ctx.nfq then
      l2_resolve true (env.g_ep_map ctx.ep_mac) env.promisc ctx.tap false false
    else
      l2_resolve false none env.promisc ctx.tap false false

/-- dpi_recv_packet of dpi_entry.c, as the function from its call
environment to its observable effects. Stats-slot bookkeeping and packet
counters are pure counter updates and are not tracked. The direction
update for ProxyMesh/NFQ packets and the inspect switch are computed as
in the source; they feed dpi_inspect_ethernet, whose action is the
environment value. -/
def dpi_recv_packet (env : dpi_env_t) (ctx : io_ctx_t) (pkt : List Nat) :
    recv_result_t :=
  match dpi_recv_l2 env ctx pkt with
  | l2_out_t.exit r => r
  | l2_out_t.cont tap _ingress _isproxymesh epl =>
    let action := env.parse.action
    if action == DPI_ACTION_DROP || action == DPI_ACTION_RESET then
      { ret := 0, sent := [], frag_discarded := env.parse.frag_held,
        frag_sent := false, parsed := true, inspected := false,
        ep_lookup := epl }
    else
      let inspect :=
        if env.parse.eth_type == ETH_P_IP then !env.parse.dst_mb
        else if env.parse.eth_type == ETH_P_IPV6 then !env.parse.dst_mb
        else false
      let inspected := action == DPI_ACTION_NONE && inspect
      let action2 := if inspected then env.inspect else action
      if !tap && action2 != DPI_ACTION_DROP && action2 != DPI_ACTION_RESET
          && action2 != DPI_ACTION_BLOCK then
        if ctx.nfq then
          { ret := 0, sent := [], frag_discarded := false, frag_sent := false,
            parsed := true, inspected := inspected, ep_lookup := epl }
        else if env.parse.frag_held then
          { ret := 0, sent := [], frag_discarded := false, frag_sent := true,
            parsed := true, inspected := inspected, ep_lookup := epl }
        else
          { ret := 0, sent := [pkt], frag_discarded := false,
            frag_sent := false, parsed := true, inspected := inspected,
            ep_lookup := epl }
      else if !tap && ctx.nfq then
        { ret := 1, sent := [], frag_discarded := env.parse.frag_held,
          frag_sent := false, parsed := true, inspected := inspected,
          ep_lookup := epl }
      else
        { ret := 0, sent := [], frag_discarded := env.parse.frag_held,
          frag_sent := false, parsed := true, inspected := inspected,
          ep_lookup := epl }

/-- Sample NFQ-mode context owned by the MAC of epW. -/
def ctxNfq : io_ctx_t :=
  { ep_mac := [2, 0, 0, 0, 0, 1], tap := false, tc := false, quar := false,
    nfq := true }

/-- Sample plain non-TC context. -/
def ctxNonTc : io_ctx_t :=
  { ep_mac := [2, 0, 0, 0, 0, 1], tap := false, tc := false, quar := false,
    nfq := false }

/-- Sample quarantined non-TC context. -/
def ctxQuar : io_ctx_t :=
  { ep_mac := [2, 0, 0, 0, 0, 1], tap := false, tc := false, quar := true,
    nfq := false }

/-- A 14-byte unicast frame whose source MAC is the context MAC. -/
def pktUni : List Nat := [2, 0, 0, 0, 0, 9, 2, 0, 0, 0, 0, 1, 8, 0]

/-- A 14-byte broadcast frame. -/
def pktBcast : List Nat :=
  [255, 255, 255, 255, 255, 255, 2, 0, 0, 0, 0, 1, 8, 0]

/-- Sample environment whose decoder reports DROP with a held fragment
set. -/
def envDrop : dpi_env_t :=
  { g_ep_map := epMapW, promisc := false,
    parse := { action := DPI_ACTION_DROP, eth_type := ETH_P_IP,
               frag_held := true, dst_mb := false },
    inspect := DPI_ACTION_NONE, pm_dir := false, nfq_dir := true }

end MSeg

namespace MSeg

/-- Claim C10: dpi_is_ip4_internal returns true whenever the snapshot is
NULL or empty, or the address is loopback (127.0.0.0/8 or
INADDR_LOOPBACK); otherwise it returns true iff some snapshot entry
(subnet, mask) satisfies (ip and mask) = subnet. -/
theorem c10_is_ip4_internal_characterization :
    (∀ ip : Nat, dpi_is_ip4_internal none ip = true) ∧
    (∀ (l : List io_subnet4_t) (ip : Nat),
      dpi_is_ip4_internal (some l) ip = true ↔
        (l = [] ∨ ip = htonl INADDR_LOOPBACK
          ∨ (ntohl ip) &&& 0xff000000 = 0x7f000000
          ∨ ∃ e ∈ l, ip &&& e.mask = e.ip)) := by
  constructor
  · intro ip
    rfl
  · intro l ip
    unfold dpi_is_ip4_internal
    by_cases h : (l.length == 0 || ip == htonl INADDR_LOOPBACK
        || IS_IN_LOOPBACK (ntohl ip)) = true
    · simp only [h, if_true, true_iff]
      simp only [Bool.or_eq_true, beq_iff_eq, IS_IN_LOOPBACK] at h
      rcases h with (h | h) | h
      · exact Or.inl (List.length_eq_zero.mp h)
      · exact Or.inr (Or.inl h)
      · exact Or.inr (Or.inr (Or.inl h))
    · simp only [h, if_false]
      simp only [Bool.or_eq_true, beq_iff_eq, IS_IN_LOOPBACK, not_or] at h
      obtain ⟨⟨h0, h1⟩, h2⟩ := h
      constructor
      · intro ha
        refine Or.inr (Or.inr (Or.inr ?_))
        rcases List.any_eq_true.mp ha with ⟨e, he, hme⟩
        exact ⟨e, he, beq_iff_eq.mp hme⟩
      · rintro (h | h | h | ⟨e, he, hme⟩)
        · exact absurd (List.length_eq_zero.mpr h) h0
        · exact absurd h h1
        · exact absurd h h2
        · exact List.any_eq_true.mpr ⟨e, he, beq_iff_eq.mpr hme⟩

/-- The pips loop returns the decision of the first entry equal to either
address, destination checked first. -/
theorem pips_scan_eq_find (l : List Nat) (saddr daddr : Nat) :
    pips_scan l saddr daddr =
      (l.find? (fun e => daddr == e || saddr == e)).map (fun e => daddr == e) := by
  induction l with
  | nil => rfl
  | cons e rest ih =>
    unfold pips_scan
    by_cases hd : (daddr == e) = true
    · simp [List.find?, hd]
    · by_cases hs : (saddr == e) = true
      · simp [List.find?, hd, hs]
      · simp [List.find?, hd, hs, ih]

/-- Claim C3: for an IPv4 packet in NFQ mode with a pips list present,
nfq_packet_direction follows the claimed cascade: first pips entry equal
to the destination or source address decides (destination = ingress),
else app-map hit on dport means ingress, else app-map hit on sport means
egress, else ingress iff dport < sport. -/
theorem c3_nfq_direction (p : dpi_packet_t) (l : List Nat)
    (htype : p.eth_type = ETH_P_IP) (hpips : p.ep.pips = some l) :
    nfq_packet_direction p =
      nfq_direction_claim l p.saddr p.daddr
        (dpi_ep_app_map_lookup p.ep p.dport p.ip_proto).isSome
        (dpi_ep_app_map_lookup p.ep p.sport p.ip_proto).isSome
        p.sport p.dport := by
  unfold nfq_packet_direction nfq_direction_claim
  rw [htype, hpips]
  simp only [beq_self_eq_true, if_true]
  rw [pips_scan_eq_find]
  cases h : l.find? (fun e => p.daddr == e || p.saddr == e) with
  | none =>
    simp only [h, Option.map_none]
    cases hd : (dpi_ep_app_map_lookup p.ep p.dport p.ip_proto).isSome with
    | true => simp [hd]
    | false =>
      cases hs : (dpi_ep_app_map_lookup p.ep p.sport p.ip_proto).isSome with
      | true => simp [hd, hs]
      | false => simp [hd, hs]
  | some e => simp [h, Option.map_some]

/-- Claim C3 witness: the spec example. pips = [10.1.1.1]; the packet with
daddr = 10.1.1.1 is ingress and the address-swapped packet is egress. -/
theorem c3_nfq_direction_witness :
    nfq_packet_direction pktNfqA = true ∧ nfq_packet_direction pktNfqB = false :=
  ⟨(c3_nfq_direction pktNfqA [ip4n 10 1 1 1] rfl rfl).trans (by decide),
   (c3_nfq_direction pktNfqB [ip4n 10 1 1 1] rfl rfl).trans (by decide)⟩

/-- If some record carries the key, replacing it stores a2 as the record
found for the key afterwards (a2 must itself carry the key). -/
theorem find?_app_map_update (port ip_proto : Nat) (a2 : io_app_t)
    (h2 : app_key_match a2 port ip_proto = true) :
    ∀ (m : List io_app_t) (a : io_app_t),
      m.find? (fun x => app_key_match x port ip_proto) = some a →
      (app_map_update m port ip_proto a2).find?
        (fun x => app_key_match x port ip_proto) = some a2 := by
  intro m
  induction m with
  | nil => intro a h; simp [List.find?] at h
  | cons b rest ih =>
    intro a h
    by_cases hb : app_key_match b port ip_proto = true
    · unfold app_map_update
      simp [hb, List.find?, h2]
    · unfold app_map_update
      simp only [hb, if_false, Bool.false_eq_true]
      simp only [List.find?, hb] at h ⊢
      exact ih a h

/-- The key of a record is untouched by updating its server field. -/
theorem app_key_match_set_server (a : io_app_t) (port ip_proto v : Nat) :
    app_key_match { a with server := v } port ip_proto =
      app_key_match a port ip_proto := rfl

/-- The key of a record is untouched by updating its application field. -/
theorem app_key_match_set_application (a : io_app_t) (port ip_proto v : Nat) :
    app_key_match { a with application := v } port ip_proto =
      app_key_match a port ip_proto := rfl

/-- ep_app_map_locate returns a record carrying the key, stored in the
returned endpoint as the record found for that key, and leaves
app_updated unchanged. -/
theorem ep_app_map_locate_spec (ep : io_ep_t) (port ip_proto : Nat) :
    app_key_match (ep_app_map_locate ep port ip_proto).1 port ip_proto = true ∧
    (ep_app_map_locate ep port ip_proto).2.app_map.find?
        (fun x => app_key_match x port ip_proto) =
      some (ep_app_map_locate ep port ip_proto).1 ∧
    (ep_app_map_locate ep port ip_proto).2.app_updated = ep.app_updated := by
  cases h : ep.app_map.find? (fun a => app_key_match a port ip_proto) with
  | some a =>
    have h1 : ep_app_map_locate ep port ip_proto = (a, ep) := by
      unfold ep_app_map_locate dpi_ep_app_map_lookup
      rw [h]
    rw [h1]
    refine ⟨?_, h, rfl⟩
    have hp := List.find?_some h
    exact hp
  | none =>
    have h1 : ep_app_map_locate ep port ip_proto =
        (ep_app_new port ip_proto,
         { ep with app_map := ep_app_new port ip_proto :: ep.app_map,
                   app_ports := ep.app_ports + 1 }) := by
      unfold ep_app_map_locate dpi_ep_app_map_lookup
      rw [h]
    rw [h1]
    refine ⟨?_, ?_, rfl⟩
    · simp [app_key_match, ep_app_new]
    · simp [List.find?, app_key_match, ep_app_new]

/-- Evaluation of dpi_ep_set_app on an ingress session, with the two
change conditions abstracted as Booleans. -/
theorem dpi_ep_set_app_result (ep : io_ep_t) (s : dpi_session_t)
    (server application : Nat) (hin : s.flags.ingress = true) (b1 b2 : Bool)
    (h1 : (server != 0 &&
      (ep_app_map_locate ep s.server.port s.ip_proto).1.server != server) = b1)
    (h2 : (application != 0 &&
      (ep_app_map_locate ep s.server.port s.ip_proto).1.application != application) = b2) :
    dpi_ep_set_app ep s server application =
      { (ep_app_map_locate ep s.server.port s.ip_proto).2 with
        app_map := app_map_update
          (ep_app_map_locate ep s.server.port s.ip_proto).2.app_map
          s.server.port s.ip_proto
          { (ep_app_map_locate ep s.server.port s.ip_proto).1 with
            server := if b1 then server
              else (ep_app_map_locate ep s.server.port s.ip_proto).1.server,
            application := if b2 then application
              else (ep_app_map_locate ep s.server.port s.ip_proto).1.application },
        app_updated := if b1 || b2 then 1
          else (ep_app_map_locate ep s.server.port s.ip_proto).2.app_updated } := by
  subst h1
  subst h2
  unfold dpi_ep_set_app
  rw [hin]
  simp only [Bool.not_true, Bool.false_eq_true, if_false]
  cases hc1 : (server != 0 &&
      (ep_app_map_locate ep s.server.port s.ip_proto).1.server != server) with
  | true =>
    simp only [hc1, if_true]
    cases hc2 : (application != 0 &&
        (ep_app_map_locate ep s.server.port s.ip_proto).1.application != application) with
    | true => simp [hc2]
    | false => simp [hc2]
  | false =>
    simp only [hc1, Bool.false_eq_true, if_false]
    cases hc2 : (application != 0 &&
        (ep_app_map_locate ep s.server.port s.ip_proto).1.application != application) with
    | true => simp [hc2]
    | false => simp [hc2]

/-- Claim C4: for an ingress session, dpi_ep_set_app overwrites the server
field only when the new value is non-zero and differs from the stored
one, likewise the application field, and app_updated becomes 1 iff at
least one field changed (otherwise it is left at its prior value); the
record located for the key is the stored one, or the fresh zero record
when absent. -/
theorem c4_set_app_monotonic (ep : io_ep_t) (s : dpi_session_t)
    (server application : Nat) (hin : s.flags.ingress = true) :
    dpi_ep_app_map_lookup (dpi_ep_set_app ep s server application)
        s.server.port s.ip_proto =
      some { located_app ep s.server.port s.ip_proto with
             server :=
               if server ≠ 0 ∧ (located_app ep s.server.port s.ip_proto).server ≠ server
               then server
               else (located_app ep s.server.port s.ip_proto).server,
             application :=
               if application ≠ 0 ∧
                   (located_app ep s.server.port s.ip_proto).application ≠ application
               then application
               else (located_app ep s.server.port s.ip_proto).application } ∧
    (dpi_ep_set_app ep s server application).app_updated =
      (if (server ≠ 0 ∧ (located_app ep s.server.port s.ip_proto).server ≠ server)
          ∨ (application ≠ 0 ∧
              (located_app ep s.server.port s.ip_proto).application ≠ application)
       then 1 else ep.app_updated) := by
  obtain ⟨hkey, hfind, hupd⟩ := ep_app_map_locate_spec ep s.server.port s.ip_proto
  simp only [located_app]
  by_cases hS : server ≠ 0 ∧
      (ep_app_map_locate ep s.server.port s.ip_proto).1.server ≠ server
  · have hb1 : (server != 0 &&
        (ep_app_map_locate ep s.server.port s.ip_proto).1.server != server) = true := by
      simp only [Bool.and_eq_true, bne_iff_ne]
      exact ⟨hS.1, hS.2⟩
    by_cases hA : application ≠ 0 ∧
        (ep_app_map_locate ep s.server.port s.ip_proto).1.application ≠ application
    · have hb2 : (application != 0 &&
          (ep_app_map_locate ep s.server.port s.ip_proto).1.application != application) = true := by
        simp only [Bool.and_eq_true, bne_iff_ne]
        exact ⟨hA.1, hA.2⟩
      rw [dpi_ep_set_app_result ep s server application hin true true hb1 hb2]
      rw [if_pos hS, if_pos hA, if_pos (Or.inl hS)]
      refine ⟨find?_app_map_update s.server.port s.ip_proto _ ?_ _ _ hfind, rfl⟩
      exact hkey
    · have hb2 : (application != 0 &&
          (ep_app_map_locate ep s.server.port s.ip_proto).1.application != application) = false := by
        rw [Bool.eq_false_iff]
        intro hk
        exact hA (by simpa [Bool.and_eq_true, bne_iff_ne] using hk)
      rw [dpi_ep_set_app_result ep s server application hin true false hb1 hb2]
      rw [if_pos hS, if_neg hA, if_pos (Or.inl hS)]
      refine ⟨find?_app_map_update s.server.port s.ip_proto _ ?_ _ _ hfind, rfl⟩
      exact hkey
  · have hb1 : (server != 0 &&
        (ep_app_map_locate ep s.server.port s.ip_proto).1.server != server) = false := by
      rw [Bool.eq_false_iff]
      intro hk
      exact hS (by simpa [Bool.and_eq_true, bne_iff_ne] using hk)
    by_cases hA : application ≠ 0 ∧
        (ep_app_map_locate ep s.server.port s.ip_proto).1.application ≠ application
    · have hb2 : (application != 0 &&
          (ep_app_map_locate ep s.server.port s.ip_proto).1.application != application) = true := by
        simp only [Bool.and_eq_true, bne_iff_ne]
        exact ⟨hA.1, hA.2⟩
      rw [dpi_ep_set_app_result ep s server application hin false true hb1 hb2]
      rw [if_neg hS, if_pos hA, if_pos (Or.inr hA)]
      refine ⟨find?_app_map_update s.server.port s.ip_proto _ ?_ _ _ hfind, rfl⟩
      exact hkey
    · have hb2 : (application != 0 &&
          (ep_app_map_locate ep s.server.port s.ip_proto).1.application != application) = false := by
        rw [Bool.eq_false_iff]
        intro hk
        exact hA (by simpa [Bool.and_eq_true, bne_iff_ne] using hk)
      rw [dpi_ep_set_app_result ep s server application hin false false hb1 hb2]
      rw [if_neg hS, if_neg hA,
        if_neg (by exact fun hc => hc.elim hS hA : ¬(_ ∨ _))]
      refine ⟨find?_app_map_update s.server.port s.ip_proto _ ?_ _ _ hfind, hupd⟩
      exact hkey

/-- Claim C4 witness: on epW (stored server 3, application 0, app_updated
0) an ingress call with server 7 and application 9 rewrites both fields
and raises app_updated. -/
theorem c4_set_app_witness :
    dpi_ep_app_map_lookup (dpi_ep_set_app epW sessIn 7 9) 80 6 =
      some { port := 80, proto := 0, server := 7, application := 9,
             version := ['1', '.', '0'], listen := false, ip_proto := 6,
             src := APP_SRC_DP } ∧
    (dpi_ep_set_app epW sessIn 7 9).app_updated = 1 := by
  have h := c4_set_app_monotonic epW sessIn 7 9 rfl
  revert h
  decide

/-- Claim C7 counterexample: epW stores the non-empty version 1.0 on TCP
port 80; an ingress dpi_ep_set_server_ver call carrying an empty version
(len 0) clears the stored version instead of leaving it unchanged. -/
theorem c7_counterexample :
    (dpi_ep_app_map_lookup epW 80 6).map io_app_t.version = some ['1', '.', '0'] ∧
    (dpi_ep_app_map_lookup (dpi_ep_set_server_ver epW sessIn [] 0) 80 6).map
        io_app_t.version = some [] := by
  decide

/-- Claim C7 (amended): for every ingress session, dpi_ep_set_server_ver
overwrites the stored version unconditionally with the first
min(len+1, SERVER_VER_SIZE)-1 characters of the supplied string (in
particular an empty version clears a previously stored one; no
comparison against the stored value is made), and app_updated is not
touched. -/
theorem c7_set_server_ver_overwrites (ep : io_ep_t) (s : dpi_session_t)
    (ver : List Char) (len : Nat) (hin : s.flags.ingress = true) :
    dpi_ep_app_map_lookup (dpi_ep_set_server_ver ep s ver len)
        s.server.port s.ip_proto =
      some { located_app ep s.server.port s.ip_proto with
             version := ver.take (min (len + 1) SERVER_VER_SIZE - 1) } ∧
    (dpi_ep_set_server_ver ep s ver len).app_updated = ep.app_updated := by
  obtain ⟨hkey, hfind, hupd⟩ := ep_app_map_locate_spec ep s.server.port s.ip_proto
  simp only [located_app]
  have heq : dpi_ep_set_server_ver ep s ver len =
      { (ep_app_map_locate ep s.server.port s.ip_proto).2 with
        app_map := app_map_update
          (ep_app_map_locate ep s.server.port s.ip_proto).2.app_map
          s.server.port s.ip_proto
          { (ep_app_map_locate ep s.server.port s.ip_proto).1 with
            version := ver.take (min (len + 1) SERVER_VER_SIZE - 1) } } := by
    unfold dpi_ep_set_server_ver
    rw [hin]
    rfl
  rw [heq]
  refine ⟨find?_app_map_update s.server.port s.ip_proto _ ?_ _ _ hfind, hupd⟩
  exact hkey

/-- Claim C7 witness (for the amended claim): an ingress call with the
one-character version 2 stores exactly that version and leaves
app_updated at 0. -/
theorem c7_set_server_ver_witness :
    dpi_ep_app_map_lookup (dpi_ep_set_server_ver epW sessIn ['2'] 1) 80 6 =
      some { port := 80, proto := 0, server := 3, application := 0,
             version := ['2'], listen := false, ip_proto := 6,
             src := APP_SRC_DP } ∧
    (dpi_ep_set_server_ver epW sessIn ['2'] 1).app_updated = 0 := by
  have h := c7_set_server_ver_overwrites epW sessIn ['2'] 1 rfl
  revert h
  decide

/-- Claim C8: for a session without the INGRESS flag, dpi_ep_set_app,
dpi_ep_set_proto and dpi_ep_set_server_ver return the endpoint unchanged
(so its app map, app_ports and app_updated are untouched) and
dpi_ep_get_app returns 0 without touching the endpoint; these four
functions are the only app-map accessors of dpi_entry.c. -/
theorem c8_egress_no_mutation (ep : io_ep_t) (s : dpi_session_t)
    (server application proto : Nat) (ver : List Char) (len : Nat)
    (heg : s.flags.ingress = false) :
    dpi_ep_set_app ep s server application = ep ∧
    dpi_ep_set_proto ep s proto = ep ∧
    dpi_ep_set_server_ver ep s ver len = ep ∧
    dpi_ep_get_app ep s = (0, ep) := by
  unfold dpi_ep_set_app dpi_ep_set_proto dpi_ep_set_server_ver dpi_ep_get_app
  rw [heg]
  exact ⟨rfl, rfl, rfl, rfl⟩

/-- Claim C8 witness: the egress session sessEg leaves epW untouched under
all four operations. -/
theorem c8_egress_witness :
    dpi_ep_set_app epW sessEg 7 9 = epW ∧
    dpi_ep_set_proto epW sessEg 1001 = epW ∧
    dpi_ep_set_server_ver epW sessEg ['2'] 1 = epW ∧
    dpi_ep_get_app epW sessEg = (0, epW) :=
  c8_egress_no_mutation epW sessEg 7 9 1001 ['2'] 1 rfl

/-- Ones-complement addition stays within 16 bits. -/
theorem onesAdd_le {a b : Nat} (ha : a ≤ 65535) (hb : b ≤ 65535) :
    onesAdd a b ≤ 65535 := by
  unfold onesAdd
  split <;> omega

/-- Ones-complement addition of a positive left operand is positive. -/
theorem onesAdd_pos_left {a b : Nat} (h : 0 < a) : 0 < onesAdd a b := by
  unfold onesAdd
  split <;> omega

/-- Ones-complement addition of a positive right operand is positive. -/
theorem onesAdd_pos_right {a b : Nat} (h : 0 < b) : 0 < onesAdd a b := by
  unfold onesAdd
  split <;> omega

/-- Ones-complement addition is bounded by plain addition. -/
theorem onesAdd_le_add (a b : Nat) : onesAdd a b ≤ a + b := by
  unfold onesAdd
  split <;> omega

/-- Ones-complement addition agrees with plain addition mod 65535. -/
theorem onesAdd_mod (a b : Nat) : onesAdd a b % 65535 = (a + b) % 65535 := by
  unfold onesAdd
  split <;> omega

/-- The checksum fold of 16-bit words stays within 16 bits. -/
theorem foldl_onesAdd_le (ws : List Nat) :
    ∀ acc, acc ≤ 65535 → (∀ w ∈ ws, w ≤ 65535) →
      ws.foldl onesAdd acc ≤ 65535 := by
  induction ws with
  | nil => intro acc ha _; simpa using ha
  | cons w ws ih =>
    intro acc ha hw
    simp only [List.foldl_cons]
    exact ih (onesAdd acc w) (onesAdd_le ha (hw w (List.mem_cons_self w ws)))
      (fun x hx => hw x (List.mem_cons_of_mem w hx))

/-- The checksum fold agrees with the plain sum mod 65535. -/
theorem foldl_onesAdd_mod (ws : List Nat) :
    ∀ acc, (ws.foldl onesAdd acc) % 65535 = (acc + ws.sum) % 65535 := by
  induction ws with
  | nil => intro acc; simp
  | cons w ws ih =>
    intro acc
    simp only [List.foldl_cons, List.sum_cons]
    rw [ih (onesAdd acc w)]
    have h := onesAdd_mod acc w
    omega

/-- The checksum fold is bounded by the plain sum. -/
theorem foldl_onesAdd_le_sum (ws : List Nat) :
    ∀ acc, ws.foldl onesAdd acc ≤ acc + ws.sum := by
  induction ws with
  | nil => intro acc; simp
  | cons w ws ih =>
    intro acc
    simp only [List.foldl_cons, List.sum_cons]
    have h1 := ih (onesAdd acc w)
    have h2 := onesAdd_le_add acc w
    omega

/-- The checksum fold of a positive accumulator is positive. -/
theorem foldl_onesAdd_pos (ws : List Nat) :
    ∀ acc, 0 < acc → 0 < ws.foldl onesAdd acc := by
  induction ws with
  | nil => intro acc h; simpa using h
  | cons w ws ih =>
    intro acc h
    simp only [List.foldl_cons]
    exact ih (onesAdd acc w) (onesAdd_pos_left h)

/-- The checksum fold of a list containing a positive word is positive. -/
theorem foldl_onesAdd_pos_of_mem (w : Nat) (hw : 0 < w) :
    ∀ (ws : List Nat), w ∈ ws → ∀ acc, 0 < ws.foldl onesAdd acc := by
  intro ws
  induction ws with
  | nil => intro h; simp at h
  | cons x ws ih =>
    intro hmem acc
    simp only [List.foldl_cons]
    rcases List.mem_cons.mp hmem with rfl | hm
    · exact foldl_onesAdd_pos ws _ (onesAdd_pos_right hw)
    · exact ih hm _

/-- The heart of checksum validation: filling the complement of the
ones-sum (computed with a zero checksum field) into the checksum slot
makes the ones-sum of the completed words 0xFFFF. -/
theorem cksum_insert_valid (pre post : List Nat)
    (hpre : ∀ w ∈ pre, w ≤ 65535) (hpost : ∀ w ∈ post, w ≤ 65535)
    (hpos : ∃ w ∈ pre, 0 < w) :
    cksumFold (pre ++ (65535 - cksumFold (pre ++ 0 :: post)) :: post) = 65535 := by
  obtain ⟨w0, hw0m, hw0⟩ := hpos
  have hall0 : ∀ w ∈ pre ++ 0 :: post, w ≤ 65535 := by
    intro x hx
    rcases List.mem_append.mp hx with h | h
    · exact hpre x h
    · rcases List.mem_cons.mp h with rfl | h
      · omega
      · exact hpost x h
  have hS_le : cksumFold (pre ++ 0 :: post) ≤ 65535 :=
    foldl_onesAdd_le _ 0 (by omega) hall0
  have hS_mod : cksumFold (pre ++ 0 :: post) % 65535 =
      (0 + (pre.sum + (0 + post.sum))) % 65535 := by
    unfold cksumFold
    rw [foldl_onesAdd_mod]
    simp [List.sum_append]
  have hS_le_sum : cksumFold (pre ++ 0 :: post) ≤
      0 + (pre ++ 0 :: post).sum :=
    foldl_onesAdd_le_sum _ 0
  have hsum0 : (pre ++ 0 :: post).sum = pre.sum + (0 + post.sum) := by
    simp [List.sum_append]
  have hV_le : cksumFold (pre ++ (65535 - cksumFold (pre ++ 0 :: post)) :: post)
      ≤ 65535 := by
    apply foldl_onesAdd_le _ 0 (by omega)
    intro x hx
    rcases List.mem_append.mp hx with h | h
    · exact hpre x h
    · rcases List.mem_cons.mp h with rfl | h
      · omega
      · exact hpost x h
  have hV_pos : 0 < cksumFold (pre ++ (65535 - cksumFold (pre ++ 0 :: post)) :: post) :=
    foldl_onesAdd_pos_of_mem w0 hw0 _ (List.mem_append_left _ hw0m) 0
  have hV_mod : cksumFold (pre ++ (65535 - cksumFold (pre ++ 0 :: post)) :: post) % 65535 =
      (0 + (pre.sum + ((65535 - cksumFold (pre ++ 0 :: post)) + post.sum))) % 65535 := by
    unfold cksumFold
    rw [foldl_onesAdd_mod]
    simp [List.sum_append]
  omega

/-- Pairing the big-endian bytes of bounded words recovers the words. -/
theorem words16_bytesOfWords (ws : List Nat) (h : ∀ w ∈ ws, w < 65536) :
    words16 (bytesOfWords ws) = ws := by
  induction ws with
  | nil => rfl
  | cons w ws ih =>
    have hw := h w (List.mem_cons_self w ws)
    simp only [bytesOfWords, be16, List.append_eq, List.cons_append,
      List.nil_append, words16]
    rw [ih (fun x hx => h x (List.mem_cons_of_mem w hx))]
    congr 1
    omega

/-- Each word contributes two bytes. -/
theorem bytesOfWords_length (ws : List Nat) :
    (bytesOfWords ws).length = 2 * ws.length := by
  induction ws with
  | nil => rfl
  | cons w ws ih =>
    simp only [bytesOfWords, be16, List.append_eq, List.cons_append,
      List.nil_append, List.length_cons, ih]
    omega

/-- bytesOfWords distributes over append. -/
theorem bytesOfWords_append (xs ys : List Nat) :
    bytesOfWords (xs ++ ys) = bytesOfWords xs ++ bytesOfWords ys := by
  induction xs with
  | nil => rfl
  | cons x xs ih => simp [bytesOfWords, ih]

/-- The RST source port is 16 bits. -/
theorem rst_sp_lt (sess : dpi_session_t) (to_server : Bool) :
    rst_sp sess to_server < 65536 := by
  unfold rst_sp
  omega

/-- The RST destination port is 16 bits. -/
theorem rst_dp_lt (sess : dpi_session_t) (to_server : Bool) :
    rst_dp sess to_server < 65536 := by
  unfold rst_dp
  omega

/-- The RST sequence number is 32 bits. -/
theorem rst_seq_lt (sess : dpi_session_t) (to_server : Bool) :
    rst_seq sess to_server < 4294967296 := by
  unfold rst_seq
  omega

/-- The stored IPv4 checksum is 16 bits. -/
theorem rst_ip_check_le (idv sa da : Nat) : rst_ip_check idv sa da ≤ 65535 :=
  Nat.sub_le 65535 _

/-- The stored TCP checksum is 16 bits. -/
theorem rst_tcp_check_le (sa da sp dp seq : Nat) :
    rst_tcp_check sa da sp dp seq ≤ 65535 :=
  Nat.sub_le 65535 _

/-- The first address word is 16 bits. -/
theorem ipw1_lt (n : Nat) : ipw1 n < 65536 := by
  unfold ipw1
  omega

/-- The second address word is 16 bits. -/
theorem ipw2_lt (n : Nat) : ipw2 n < 65536 := by
  unfold ipw2
  omega

/-- The Ethernet header of the RST frame splits into two 6-byte MACs and
the ethertype bytes. -/
theorem rst_eth_hdr_split (ingress to_server : Bool) (uc cmac : List Nat)
    (hu : uc.length = 6) (hc : cmac.length = 6) :
    ∃ A B, rst_eth_hdr ingress to_server uc cmac = A ++ (B ++ [8, 0]) ∧
      A.length = 6 ∧ B.length = 6 := by
  cases ingress <;> cases to_server <;>
    refine ⟨_, _, rfl, ?_, ?_⟩ <;> first | exact hu | exact hc

/-- The Ethernet header of the RST frame is 14 bytes. -/
theorem rst_eth_hdr_length (ingress to_server : Bool) (uc cmac : List Nat)
    (hu : uc.length = 6) (hc : cmac.length = 6) :
    (rst_eth_hdr ingress to_server uc cmac).length = 14 := by
  cases ingress <;> cases to_server <;> simp [rst_eth_hdr, hu, hc]

/-- The RST frame after its Ethernet header is the IPv4 header bytes
followed by the TCP header bytes. -/
theorem rst_frame_drop14 (sess : dpi_session_t) (to_server : Bool)
    (uc : List Nat) (randId : Nat) (hu : uc.length = 6)
    (hc : sess.client.mac.length = 6) :
    (rst_frame sess to_server uc randId).drop 14 =
      bytesOfWords (rst_ip_words_of sess to_server randId)
        ++ bytesOfWords (rst_tcp_words_of sess to_server) := by
  unfold rst_frame
  rw [← rst_eth_hdr_length sess.flags.ingress to_server uc sess.client.mac hu hc]
  rw [List.drop_left]
  rfl

/-- The RST frame is 54 bytes long. -/
theorem rst_frame_length (sess : dpi_session_t) (to_server : Bool)
    (uc : List Nat) (randId : Nat) (hu : uc.length = 6)
    (hc : sess.client.mac.length = 6) :
    (rst_frame sess to_server uc randId).length = 54 := by
  unfold rst_frame
  rw [List.length_append,
    rst_eth_hdr_length sess.flags.ingress to_server uc sess.client.mac hu hc,
    List.length_append, bytesOfWords_length, bytesOfWords_length]
  rfl

/-- The RST frame carries ethertype 0x0800. -/
theorem rst_frame_ethertype (sess : dpi_session_t) (to_server : Bool)
    (uc : List Nat) (randId : Nat) (hu : uc.length = 6)
    (hc : sess.client.mac.length = 6) :
    ((rst_frame sess to_server uc randId).drop 12).take 2 = [8, 0] := by
  obtain ⟨A, B, hE, hA, hB⟩ :=
    rst_eth_hdr_split sess.flags.ingress to_server uc sess.client.mac hu hc
  show ((rst_frame sess to_server uc randId).drop (6 + 6)).take 2 = [8, 0]
  rw [← List.drop_drop]
  unfold rst_frame
  rw [hE, List.append_assoc, List.append_assoc]
  rw [List.drop_left' hA, List.drop_left' hB]
  rfl

/-- The IPv4 header checksum of the RST frame validates. -/
theorem rst_frame_ip_cksum (sess : dpi_session_t) (to_server : Bool)
    (uc : List Nat) (randId : Nat) (hu : uc.length = 6)
    (hc : sess.client.mac.length = 6) :
    ip_checksum_ok (rst_frame sess to_server uc randId) := by
  unfold ip_checksum_ok
  have h20 : ((rst_frame sess to_server uc randId).drop 14).take 20 =
      bytesOfWords (rst_ip_words_of sess to_server randId) := by
    rw [rst_frame_drop14 sess to_server uc randId hu hc]
    refine List.take_left' ?_
    rw [bytesOfWords_length]
    rfl
  have hb : ∀ w ∈ rst_ip_words_of sess to_server randId, w < 65536 := by
    intro w hw
    simp only [rst_ip_words_of, rst_ip_words, List.mem_cons,
      List.not_mem_nil, or_false] at hw
    rcases hw with rfl | rfl | rfl | rfl | rfl | rfl | rfl | rfl | rfl | rfl
    · omega
    · omega
    · omega
    · omega
    · omega
    · exact Nat.lt_succ_of_le (rst_ip_check_le (randId % 65536)
        (rst_sa sess to_server) (rst_da sess to_server))
    · exact ipw1_lt (rst_sa sess to_server)
    · exact ipw2_lt (rst_sa sess to_server)
    · exact ipw1_lt (rst_da sess to_server)
    · exact ipw2_lt (rst_da sess to_server)
  have hpre : ∀ w ∈ [0x4500, 40, randId % 65536, 0x4000, 0xFF06], w ≤ 65535 := by
    intro w hw
    simp only [List.mem_cons, List.not_mem_nil, or_false] at hw
    rcases hw with rfl | rfl | rfl | rfl | rfl <;> omega
  have hpost : ∀ w ∈ [ipw1 (rst_sa sess to_server), ipw2 (rst_sa sess to_server),
      ipw1 (rst_da sess to_server), ipw2 (rst_da sess to_server)], w ≤ 65535 := by
    intro w hw
    simp only [List.mem_cons, List.not_mem_nil, or_false] at hw
    rcases hw with rfl | rfl | rfl | rfl
    · exact Nat.le_of_lt_succ (ipw1_lt (rst_sa sess to_server))
    · exact Nat.le_of_lt_succ (ipw2_lt (rst_sa sess to_server))
    · exact Nat.le_of_lt_succ (ipw1_lt (rst_da sess to_server))
    · exact Nat.le_of_lt_succ (ipw2_lt (rst_da sess to_server))
  rw [h20, words16_bytesOfWords _ hb]
  exact cksum_insert_valid
    [0x4500, 40, randId % 65536, 0x4000, 0xFF06]
    [ipw1 (rst_sa sess to_server), ipw2 (rst_sa sess to_server),
     ipw1 (rst_da sess to_server), ipw2 (rst_da sess to_server)]
    hpre hpost ⟨0x4500, by simp, by omega⟩

/-- The TCP pseudo-header checksum of the RST frame validates. -/
theorem rst_frame_tcp_cksum (sess : dpi_session_t) (to_server : Bool)
    (uc : List Nat) (randId : Nat) (hu : uc.length = 6)
    (hc : sess.client.mac.length = 6) :
    tcp_checksum_ok (rst_frame sess to_server uc randId) := by
  unfold tcp_checksum_ok
  have h8 : ((rst_frame sess to_server uc randId).drop 26).take 8 =
      bytesOfWords [ipw1 (rst_sa sess to_server), ipw2 (rst_sa sess to_server),
        ipw1 (rst_da sess to_server), ipw2 (rst_da sess to_server)] := by
    have h1 : (rst_frame sess to_server uc randId).drop 26 =
        ((rst_frame sess to_server uc randId).drop 14).drop 12 := by
      rw [List.drop_drop]
    rw [h1, rst_frame_drop14 sess to_server uc randId hu hc]
    rfl
  have h20 : ((rst_frame sess to_server uc randId).drop 34).take 20 =
      bytesOfWords (rst_tcp_words_of sess to_server) := by
    have h1 : (rst_frame sess to_server uc randId).drop 34 =
        ((rst_frame sess to_server uc randId).drop 14).drop 20 := by
      rw [List.drop_drop]
    rw [h1, rst_frame_drop14 sess to_server uc randId hu hc]
    rfl
  have hb1 : ∀ w ∈ [ipw1 (rst_sa sess to_server), ipw2 (rst_sa sess to_server),
      ipw1 (rst_da sess to_server), ipw2 (rst_da sess to_server)], w < 65536 := by
    intro w hw
    simp only [List.mem_cons, List.not_mem_nil, or_false] at hw
    rcases hw with rfl | rfl | rfl | rfl
    · exact ipw1_lt (rst_sa sess to_server)
    · exact ipw2_lt (rst_sa sess to_server)
    · exact ipw1_lt (rst_da sess to_server)
    · exact ipw2_lt (rst_da sess to_server)
  have hb2 : ∀ w ∈ rst_tcp_words_of sess to_server, w < 65536 := by
    intro w hw
    simp only [rst_tcp_words_of, rst_tcp_words, List.mem_cons,
      List.not_mem_nil, or_false] at hw
    rcases hw with h | h | h | h | h | h | h | h | h | h <;> rw [h]
    · exact rst_sp_lt sess to_server
    · exact rst_dp_lt sess to_server
    · have e3 := rst_seq_lt sess to_server
      omega
    · omega
    · omega
    · omega
    · omega
    · omega
    · exact Nat.lt_succ_of_le (rst_tcp_check_le (rst_sa sess to_server)
        (rst_da sess to_server) (rst_sp sess to_server) (rst_dp sess to_server)
        (rst_seq sess to_server))
    · omega
  have hpre : ∀ w ∈ [ipw1 (rst_sa sess to_server), ipw2 (rst_sa sess to_server),
      ipw1 (rst_da sess to_server), ipw2 (rst_da sess to_server), 6, 20,
      rst_sp sess to_server, rst_dp sess to_server,
      rst_seq sess to_server / 65536, rst_seq sess to_server % 65536,
      0, 0, 0x5004, 0], w ≤ 65535 := by
    intro w hw
    simp only [List.mem_cons, List.not_mem_nil, or_false] at hw
    rcases hw with rfl | rfl | rfl | rfl | rfl | rfl | rfl | rfl | rfl | rfl |
      rfl | rfl | rfl | rfl
    · exact Nat.le_of_lt_succ (ipw1_lt (rst_sa sess to_server))
    · exact Nat.le_of_lt_succ (ipw2_lt (rst_sa sess to_server))
    · exact Nat.le_of_lt_succ (ipw1_lt (rst_da sess to_server))
    · exact Nat.le_of_lt_succ (ipw2_lt (rst_da sess to_server))
    · omega
    · omega
    · exact Nat.le_of_lt_succ (rst_sp_lt sess to_server)
    · exact Nat.le_of_lt_succ (rst_dp_lt sess to_server)
    · have e3 := rst_seq_lt sess to_server
      omega
    · omega
    · omega
    · omega
    · omega
    · omega
  have hpost : ∀ w ∈ [(0 : Nat)], w ≤ 65535 := by
    intro w hw
    simp only [List.mem_cons, List.not_mem_nil, or_false] at hw
    omega
  rw [h8, h20, words16_bytesOfWords _ hb1, words16_bytesOfWords _ hb2]
  exact cksum_insert_valid
    [ipw1 (rst_sa sess to_server), ipw2 (rst_sa sess to_server),
     ipw1 (rst_da sess to_server), ipw2 (rst_da sess to_server), 6, 20,
     rst_sp sess to_server, rst_dp sess to_server,
     rst_seq sess to_server / 65536, rst_seq sess to_server % 65536,
     0, 0, 0x5004, 0]
    [0] hpre hpost ⟨6, by simp, by omega⟩

/-- All wire facts of claim C1 hold of the constructed RST frame. -/
theorem rst_frame_wire_spec (sess : dpi_session_t) (to_server : Bool)
    (uc : List Nat) (randId : Nat) (hu : uc.length = 6)
    (hc : sess.client.mac.length = 6) :
    rst_frame_wire_ok sess to_server randId (rst_frame sess to_server uc randId) := by
  have hd14 := rst_frame_drop14 sess to_server uc randId hu hc
  refine ⟨rst_frame_length sess to_server uc randId hu hc,
    rst_frame_ethertype sess to_server uc randId hu hc,
    ?_, ?_, ?_, ?_, ?_,
    rst_frame_ip_cksum sess to_server uc randId hu hc,
    ?_, ?_, ?_, ?_, ?_, ?_, ?_,
    rst_frame_tcp_cksum sess to_server uc randId hu hc⟩
  · rw [hd14]
    rfl
  · show ((rst_frame sess to_server uc randId).drop (14 + 2)).take 2 = [0, 40]
    rw [← List.drop_drop, hd14]
    rfl
  · show ((rst_frame sess to_server uc randId).drop (14 + 4)).take 2 =
      be16 (randId % 65536)
    rw [← List.drop_drop, hd14]
    rfl
  · show ((rst_frame sess to_server uc randId).drop (14 + 6)).take 2 = [64, 0]
    rw [← List.drop_drop, hd14]
    rfl
  · show ((rst_frame sess to_server uc randId).drop (14 + 8)).take 2 = [255, 6]
    rw [← List.drop_drop, hd14]
    rfl
  · show ((rst_frame sess to_server uc randId).drop (14 + 20)).take 2 =
      be16 (rst_sp sess to_server)
    rw [← List.drop_drop, hd14]
    rfl
  · show ((rst_frame sess to_server uc randId).drop (14 + 22)).take 2 =
      be16 (rst_dp sess to_server)
    rw [← List.drop_drop, hd14]
    rfl
  · show ((rst_frame sess to_server uc randId).drop (14 + 24)).take 4 =
      be32 (rst_seq sess to_server)
    rw [← List.drop_drop, hd14]
    have h4 : ((bytesOfWords (rst_ip_words_of sess to_server randId)
        ++ bytesOfWords (rst_tcp_words_of sess to_server)).drop 24).take 4 =
        [rst_seq sess to_server / 65536 / 256 % 256,
         rst_seq sess to_server / 65536 % 256,
         rst_seq sess to_server % 65536 / 256 % 256,
         rst_seq sess to_server % 65536 % 256] := rfl
    rw [h4, be32]
    have e1 : rst_seq sess to_server / 65536 / 256 % 256 =
        rst_seq sess to_server / 16777216 % 256 := by omega
    have e2 : rst_seq sess to_server % 65536 / 256 % 256 =
        rst_seq sess to_server / 256 % 256 := by omega
    have e3 : rst_seq sess to_server % 65536 % 256 =
        rst_seq sess to_server % 256 := by omega
    rw [e1, e2, e3]
  · show ((rst_frame sess to_server uc randId).drop (14 + 28)).take 4 =
      [0, 0, 0, 0]
    rw [← List.drop_drop, hd14]
    rfl
  · show ((rst_frame sess to_server uc randId).drop (14 + 32)).take 2 = [80, 4]
    rw [← List.drop_drop, hd14]
    rfl
  · show ((rst_frame sess to_server uc randId).drop (14 + 34)).take 2 = [0, 0]
    rw [← List.drop_drop, hd14]
    rfl
  · show ((rst_frame sess to_server uc randId).drop (14 + 38)).take 2 = [0, 0]
    rw [← List.drop_drop, hd14]
    rfl

/-- Claim C1: for a session that is neither TAP nor PROXYMESH and whose
endpoint MAC (server wing MAC for ingress, client wing MAC for egress)
resolves in the EP map, dpi_inject_reset_by_session emits exactly one
frame, and that frame satisfies every wire fact of the claim: 14+20+20
bytes, DF set, TTL 255, random ID, RST-only TCP header with
seq = target wing next_seq and ack = window = urgent = 0, and
validating IP and TCP checksums. -/
theorem c1_inject_reset_emits_valid_rst (g_ep_map : List Nat → Option io_mac_t)
    (sess : dpi_session_t) (to_server : Bool) (randId : Nat) (m : io_mac_t)
    (htap : sess.flags.tap = false) (hpm : sess.flags.proxymesh = false)
    (hmac : (if sess.flags.ingress then g_ep_map sess.server.mac
             else g_ep_map sess.client.mac) = some m)
    (hu : m.ep.ucmac.length = 6) (hc : sess.client.mac.length = 6) :
    dpi_inject_reset_by_session g_ep_map sess to_server randId =
      some (rst_frame sess to_server m.ep.ucmac randId) ∧
    rst_frame_wire_ok sess to_server randId
      (rst_frame sess to_server m.ep.ucmac randId) := by
  constructor
  · unfold dpi_inject_reset_by_session
    simp only [htap, hpm, Bool.false_eq_true, if_false, hmac]
  · exact rst_frame_wire_spec sess to_server m.ep.ucmac randId hu hc

/-- Claim C1 witness: on the sample EP map and ingress session, the
injection emits the frame and the frame satisfies all wire facts. -/
theorem c1_inject_reset_witness :
    dpi_inject_reset_by_session epMapW sessIn true 5555 =
      some (rst_frame sessIn true macW.ep.ucmac 5555) ∧
    rst_frame_wire_ok sessIn true 5555 (rst_frame sessIn true macW.ep.ucmac 5555) :=
  c1_inject_reset_emits_valid_rst epMapW sessIn true 5555 macW rfl rfl
    (by decide) rfl rfl

/-- Claim C2: for a session flagged TAP or PROXYMESH,
dpi_inject_reset_by_session and dpi_inject_reset return none: the guard
returns before the rand() call, the EP map lookup and the send_packet
call, so no frame is emitted and no state is touched. -/
theorem c2_tap_proxymesh_never_reset (g_ep_map : List Nat → Option io_mac_t)
    (sess : dpi_session_t) (to_server : Bool) (randId : Nat)
    (h : sess.flags.tap = true ∨ sess.flags.proxymesh = true) :
    dpi_inject_reset_by_session g_ep_map sess to_server randId = none ∧
    dpi_inject_reset g_ep_map (some sess) to_server randId = none := by
  have hb : dpi_inject_reset_by_session g_ep_map sess to_server randId = none := by
    unfold dpi_inject_reset_by_session
    rcases h with h | h
    · simp [h]
    · cases htap : sess.flags.tap with
      | true => simp [htap]
      | false => simp [htap, h]
  exact ⟨hb, by unfold dpi_inject_reset; exact hb⟩

/-- Claim C2 witness: a TAP session and a ProxyMesh session both emit
nothing. -/
theorem c2_tap_proxymesh_witness :
    (dpi_inject_reset_by_session epMapW sessTap true 7 = none ∧
      dpi_inject_reset epMapW (some sessTap) true 7 = none) ∧
    (dpi_inject_reset_by_session epMapW sessPm true 7 = none ∧
      dpi_inject_reset epMapW (some sessPm) true 7 = none) :=
  ⟨c2_tap_proxymesh_never_reset epMapW sessTap true 7 (Or.inl rfl),
   c2_tap_proxymesh_never_reset epMapW sessPm true 7 (Or.inr rfl)⟩

/-- Claim C5 counterexample: in NFQ mode a packet whose decode returns
DROP makes dpi_recv_packet return 0 (NFQ accept), not 1 as the claim
states, although the frame is not forwarded and the held fragment set is
discarded. -/
theorem c5_counterexample :
    ctxNfq.nfq = true ∧ envDrop.parse.action = DPI_ACTION_DROP ∧
    (dpi_recv_packet envDrop ctxNfq pktUni).ret = 0 ∧
    (dpi_recv_packet envDrop ctxNfq pktUni).sent = [] ∧
    (dpi_recv_packet envDrop ctxNfq pktUni).frag_discarded = true := by
  refine ⟨rfl, rfl, ?_, ?_, ?_⟩ <;> decide

/-- Claim C5 (amended): for every packet that reaches decode and on which
dpi_parse_ethernet returns DROP or RESET, dpi_recv_packet exits
immediately: a held fragment set is discarded, the frame is not
forwarded, no session/parser/policy processing runs, and the return
value is 0 in every mode — deliberately also under NFQ, where the
kernel verdict therefore accepts the packet (the source comments that no
drop is done on an L2 decision because the NFQ L2 header is fake). -/
theorem c5_decode_drop_exit (env : dpi_env_t) (ctx : io_ctx_t)
    (pkt : List Nat) (tap ingress pm epl : Bool)
    (hl2 : dpi_recv_l2 env ctx pkt = l2_out_t.cont tap ingress pm epl)
    (hact : env.parse.action = DPI_ACTION_DROP ∨
      env.parse.action = DPI_ACTION_RESET) :
    dpi_recv_packet env ctx pkt =
      { ret := 0, sent := [], frag_discarded := env.parse.frag_held,
        frag_sent := false, parsed := true, inspected := false,
        ep_lookup := epl } := by
  unfold dpi_recv_packet
  rw [hl2]
  rcases hact with h | h <;>
    simp [h, DPI_ACTION_DROP, DPI_ACTION_RESET]

/-- Claim C5 witness: the concrete NFQ drop instance, exiting with the
fragment set discarded and nothing sent. -/
theorem c5_decode_drop_witness :
    dpi_recv_packet envDrop ctxNfq pktUni =
      { ret := 0, sent := [], frag_discarded := envDrop.parse.frag_held,
        frag_sent := false, parsed := true, inspected := false,
        ep_lookup := true } :=
  c5_decode_drop_exit envDrop ctxNfq pktUni false false false true
    (by decide) (Or.inl rfl)

/-- Claim C6: in NON-TC mode (ctx.tc and ctx.nfq both false; NFQ is its
own mode in the direction table of the spec) a frame with a broadcast or
multicast destination MAC is forwarded raw through send_packet and
dpi_recv_packet returns 0 immediately: no decode, no EP lookup, no
session or policy processing. -/
theorem c6_nontc_bcast_forward (env : dpi_env_t) (ctx : io_ctx_t)
    (pkt : List Nat) (htc : ctx.tc = false) (hnfq : ctx.nfq = false)
    (hlen : 14 ≤ pkt.length)
    (hmb : is_mac_m_b_cast (pkt.take 6) = true) :
    dpi_recv_packet env ctx pkt =
      { ret := 0, sent := [pkt], frag_discarded := false, frag_sent := false,
        parsed := false, inspected := false, ep_lookup := false } := by
  unfold dpi_recv_packet dpi_recv_l2
  rw [if_neg (by omega)]
  simp [htc, hnfq, hmb]

/-- Claim C6 witness: a broadcast frame in plain non-TC mode is forwarded
raw with return 0. -/
theorem c6_nontc_bcast_witness :
    dpi_recv_packet envDrop ctxNonTc pktBcast =
      { ret := 0, sent := [pktBcast], frag_discarded := false,
        frag_sent := false, parsed := false, inspected := false,
        ep_lookup := false } :=
  c6_nontc_bcast_forward envDrop ctxNonTc pktBcast rfl rfl (by decide) (by decide)

/-- Claim C9: in non-TC mode with the quarantine flag set, a frame whose
destination MAC is neither broadcast nor multicast makes dpi_recv_packet
return 1 before the EP lookup, before decode and before any session
processing, and send_packet is never called for it. -/
theorem c9_quar_drop (env : dpi_env_t) (ctx : io_ctx_t) (pkt : List Nat)
    (htc : ctx.tc = false) (hquar : ctx.quar = true) (hlen : 14 ≤ pkt.length)
    (hmb : is_mac_m_b_cast (pkt.take 6) = false) :
    dpi_recv_packet env ctx pkt =
      { ret := 1, sent := [], frag_discarded := false, frag_sent := false,
        parsed := false, inspected := false, ep_lookup := false } := by
  unfold dpi_recv_packet dpi_recv_l2
  rw [if_neg (by omega)]
  simp [htc, hquar, hmb]

/-- Claim C9 witness: the quarantined unicast frame is dropped with
return 1, nothing sent. -/
theorem c9_quar_drop_witness :
    dpi_recv_packet envDrop ctxQuar pktUni =
      { ret := 1, sent := [], frag_discarded := false, frag_sent := false,
        parsed := false, inspected := false, ep_lookup := false } :=
  c9_quar_drop envDrop ctxQuar pktUni rfl rfl (by decide) (by decide)

end MSeg
